import Mathlib

/-!
Verification development for the excel-to-mongo upload service (src/index.js).

The service exposes POST /upload: multer stores the uploaded spreadsheet to a
temporary path, xlsx.readFile decodes it, xlsx.utils.sheet_to_json turns the
first sheet into an array of row objects, DataModel.insertMany bulk-inserts
them with the mongoose schema {name: String required, age: Number required,
email: String required unique}, fs.unlinkSync deletes the temporary file, and
the route answers 200 with the inserted count; any exception is caught and
answered with status 500.

The shallow embedding below models the route handler together with the
documented semantics of the external collaborators it calls:
  * sheet_to_json with default options: first row is the header, one object per
    subsequent non-blank row, empty cells omitted from the object;
  * mongoose insertMany with default options (ordered): every document is
    validated client-side first, and any validation failure rejects the whole
    call before anything reaches the store; otherwise documents are sent as an
    ordered bulk insert, which stops at the first unique-index conflict but
    keeps the documents inserted before it;
  * the unique index on email compares the stored strings for exact equality;
  * mongoose strict mode (the default) drops fields that are not in the schema,
    so a persisted document has exactly the fields name, age, email (plus the
    store-generated id, which we do not model).
Numeric cell values are modelled with integral magnitudes (the witnesses and
counterexamples only need integral cells). Age strings are parsed with the
full grammar the JavaScript Number() conversion accepts — optional sign,
decimal digits with optional fraction and exponent, unsigned 0x/0o/0b radix
literals, and the Infinity forms — so a cell is classified as a cast failure
exactly when Number() yields NaN. Finite numeric values are represented
exactly as rationals, abstracting from binary64 rounding and overflow (this
affects only the stored magnitude of extreme values, never whether a row is
accepted).
-/

/-- A spreadsheet cell value as distinguished by the xlsx decoder:
string, numeric or boolean. -/
inductive Cell where
  | str (s : String)
  | num (n : Int)
  | boolc (b : Bool)
deriving DecidableEq

/-- One physical row of a sheet; `none` is an empty cell. -/
abbrev SheetRow := List (Option Cell)

/-- A worksheet: a list of physical rows, the first being the header row. -/
abbrev Sheet := List SheetRow

/-- What xlsx.readFile can see in the uploaded temporary file: either bytes it
cannot parse as a spreadsheet container (including the empty file), on which
it throws, or a workbook, a list of sheets of which the handler uses the
first. A workbook with no sheets also makes the handler throw, because
sheet_to_json is then applied to an undefined worksheet. -/
inductive FileContent where
  | garbage
  | wb (sheets : List Sheet)

/-- A row object produced by sheet_to_json: column label to cell value,
empty cells omitted. -/
abbrev RawRow := List (String × Cell)

/-- How a cell is rendered to a string (used for header labels and for the
mongoose String cast): JavaScript toString semantics. -/
def cellToString : Cell → String
  | .str s => s
  | .num n => toString n
  | .boolc b => if b then "true" else "false"

/-- A row is blank when every cell is empty; sheet_to_json skips such rows by
default. -/
def isBlankRow (row : SheetRow) : Bool :=
  row.all Option.isNone

/-- Pair the header labels with one data row, omitting empty cells, as
sheet_to_json builds one row object. -/
def mkRawRow (hdr : SheetRow) (row : SheetRow) : RawRow :=
  (hdr.zip row).filterMap fun p =>
    match p with
    | (some hc, some c) => some (cellToString hc, c)
    | _ => none

/-- xlsx.utils.sheet_to_json with default options: the first row is the header,
each later non-blank row becomes one object. An empty sheet yields []. -/
def sheetToJson : Sheet → List RawRow
  | [] => []
  | hdr :: data => (data.filter fun row => !isBlankRow row).map (mkRawRow hdr)

/-- A JavaScript number as produced by the Number() conversion when it does
not yield NaN: a finite value (represented exactly as a rational, abstracting
from binary64 rounding and overflow) or one of the two infinities produced by
the Infinity literals. -/
inductive JsNum where
  | finite (q : ℚ)
  | posInf
  | negInf
deriving DecidableEq

/-- Negation of a JavaScript number, for the leading minus sign. -/
def negJsNum : JsNum → JsNum
  | .finite q => .finite (-q)
  | .posInf => .negInf
  | .negInf => .posInf

/-- A validated document of the Data collection: exactly the schema fields
name, age, email (mongoose strict mode drops everything else). -/
structure Record where
  name : String
  age : JsNum
  email : String
deriving DecidableEq

deriving instance DecidableEq for Except

/-- First-match lookup of a column in a row object. -/
def lookupCell (r : RawRow) (k : String) : Option Cell :=
  (r.find? fun p => p.1 == k).map Prod.snd

/-- Whitespace as stripped by the JavaScript Number() conversion (the ASCII
white space and line terminator characters). -/
def isWsChar (c : Char) : Bool :=
  c == ' ' || c == '\t' || c == '\n' || c == '\r' || c == '\x0b' || c == '\x0c'

/-- Split a character list at the first exponent marker e or E. -/
def splitExp : List Char → List Char × Option (List Char)
  | [] => ([], none)
  | c :: rest =>
    if c == 'e' || c == 'E' then ([], some rest)
    else
      let p := splitExp rest
      (c :: p.1, p.2)

/-- Split a character list at the first decimal point. -/
def splitDot : List Char → List Char × Option (List Char)
  | [] => ([], none)
  | c :: rest =>
    if c == '.' then ([], some rest)
    else
      let p := splitDot rest
      (c :: p.1, p.2)

/-- The value of a list of decimal digits. -/
def decDigitsVal (l : List Char) : Nat :=
  l.foldl (fun a c => 10 * a + (c.toNat - 48)) 0

/-- The exponent part of a decimal literal: an optional sign followed by at
least one decimal digit. -/
def parseExp : List Char → Option Int
  | '+' :: rest =>
    if !rest.isEmpty && rest.all Char.isDigit then
      some (Int.ofNat (decDigitsVal rest))
    else none
  | '-' :: rest =>
    if !rest.isEmpty && rest.all Char.isDigit then
      some (-(Int.ofNat (decDigitsVal rest)))
    else none
  | l =>
    if !l.isEmpty && l.all Char.isDigit then
      some (Int.ofNat (decDigitsVal l))
    else none

/-- The mantissa of a decimal literal: decimal digits with an optional
decimal point and at least one digit in total. Returns the digits' combined
value and the number of fractional digits. -/
def parseMantissa (l : List Char) : Option (Nat × Nat) :=
  let p := splitDot l
  match p.2 with
  | none =>
    if !l.isEmpty && l.all Char.isDigit then some (decDigitsVal l, 0) else none
  | some frac =>
    if p.1.all Char.isDigit && frac.all Char.isDigit
        && !(p.1.isEmpty && frac.isEmpty) then
      some (decDigitsVal (p.1 ++ frac), frac.length)
    else none

/-- The exact rational m times the e-th power of 10, built from integer
arithmetic and one normalized fraction. -/
def decValue (m : Nat) (e : Int) : ℚ :=
  if 0 ≤ e then mkRat (Int.ofNat (m * 10 ^ e.toNat)) 1
  else mkRat (Int.ofNat m) (10 ^ (-e).toNat)

/-- An unsigned decimal literal with optional fraction and exponent, exactly
the StrUnsignedDecimalLiteral grammar of the Number() conversion; the value
is computed exactly: mantissa digits times 10 to the exponent minus the
number of fractional digits. -/
def parseDec (l : List Char) : Option ℚ :=
  let p := splitExp l
  match parseMantissa p.1 with
  | none => none
  | some mf =>
    match p.2 with
    | none => some (decValue mf.1 (-(mf.2 : Int)))
    | some e =>
      match parseExp e with
      | none => none
      | some ev => some (decValue mf.1 (ev - (mf.2 : Int)))

/-- Hexadecimal digits. -/
def isHexDigit (c : Char) : Bool :=
  c.isDigit || (decide ('a' ≤ c) && decide (c ≤ 'f'))
    || (decide ('A' ≤ c) && decide (c ≤ 'F'))

/-- The value of one hexadecimal digit. -/
def hexDigitVal (c : Char) : Nat :=
  if c.isDigit then c.toNat - 48
  else if decide ('a' ≤ c) then c.toNat - 87
  else c.toNat - 55

/-- Octal digits. -/
def isOctDigit (c : Char) : Bool :=
  decide ('0' ≤ c) && decide (c ≤ '7')

/-- Binary digits. -/
def isBinDigit (c : Char) : Bool :=
  c == '0' || c == '1'

/-- The value of one decimal, octal or binary digit. -/
def decDigitVal (c : Char) : Nat :=
  c.toNat - 48

/-- The value of a nonempty all-digit list in the given base. -/
def parseRadix (b : Nat) (isD : Char → Bool) (val : Char → Nat)
    (l : List Char) : Option ℚ :=
  if !l.isEmpty && l.all isD then
    some (mkRat (Int.ofNat (l.foldl (fun a c => b * a + val c) 0)) 1)
  else none

/-- An unsigned numeric literal of the Number() conversion: the Infinity
literal, an unsigned 0x/0o/0b radix literal (JS accepts these only without a
sign, so they are disabled when a sign was consumed), or a decimal literal. -/
def parseUnsigned (allowRadix : Bool) (l : List Char) : Option JsNum :=
  if l = "Infinity".data then some .posInf
  else
    match l with
    | '0' :: c :: rest =>
      if allowRadix && (c == 'x' || c == 'X') then
        (parseRadix 16 isHexDigit hexDigitVal rest).map .finite
      else if allowRadix && (c == 'o' || c == 'O') then
        (parseRadix 8 isOctDigit decDigitVal rest).map .finite
      else if allowRadix && (c == 'b' || c == 'B') then
        (parseRadix 2 isBinDigit decDigitVal rest).map .finite
      else (parseDec l).map .finite
    | _ => (parseDec l).map .finite

/-- The JavaScript Number(s) conversion on strings: surrounding whitespace is
stripped, the empty remainder means 0, otherwise an optionally signed
numeric literal; anything else is NaN, modelled as none. -/
def numFromString (s : String) : Option JsNum :=
  let t := ((s.data.dropWhile isWsChar).reverse.dropWhile isWsChar).reverse
  match t with
  | [] => some (.finite 0)
  | '+' :: rest => parseUnsigned false rest
  | '-' :: rest => (parseUnsigned false rest).map negJsNum
  | l => parseUnsigned true l

/-- The mongoose Number cast: numbers pass through, the empty string becomes
null (so the required check fails), other strings go through Number(),
booleans become 1 or 0; NaN raises a CastError, modelled as none. -/
def castNumber : Cell → Option JsNum
  | .num n => some (.finite (n : ℚ))
  | .str s => if s.isEmpty then none else numFromString s
  | .boolc b => some (.finite (if b then 1 else 0))

/-- The name field after the mongoose String cast and required check: present
and rendering to a non-empty string (String required rejects the empty
string; no trimming is applied). -/
def nameField (r : RawRow) : Option String :=
  match lookupCell r "name" with
  | none => none
  | some c => let s := cellToString c; if s.isEmpty then none else some s

/-- The age field after the mongoose Number cast and required check. -/
def ageField (r : RawRow) : Option JsNum :=
  match lookupCell r "age" with
  | none => none
  | some c => castNumber c

/-- The email field after the mongoose String cast and required check. No
normalization is applied: the stored string is the cell's rendering as is. -/
def emailField (r : RawRow) : Option String :=
  match lookupCell r "email" with
  | none => none
  | some c => let s := cellToString c; if s.isEmpty then none else some s

/-- The schema paths that fail validation for this row, in schema order; the
mongoose ValidationError message names exactly these paths. -/
def rowErrors (r : RawRow) : List String :=
  (if (nameField r).isNone then ["name"] else [])
    ++ (if (ageField r).isNone then ["age"] else [])
    ++ (if (emailField r).isNone then ["email"] else [])

/-- Validate one row object against the schema: either the document that would
be stored (strict mode keeps only the schema fields) or the list of failing
paths. -/
def validateRow (r : RawRow) : Except (List String) Record :=
  match nameField r, ageField r, emailField r with
  | some n, some a, some e => .ok { name := n, age := a, email := e }
  | _, _, _ => .error (rowErrors r)

/-- Client-side validation of the whole batch, as mongoose insertMany performs
before contacting the store: the first invalid document (in order) rejects
the call with its validation error. -/
def validateAll : List RawRow → Except (List String) (List Record)
  | [] => .ok []
  | r :: rs =>
    match validateRow r with
    | .error e => .error e
    | .ok rec =>
      match validateAll rs with
      | .error e => .error e
      | .ok recs => .ok (rec :: recs)

/-- The ordered bulk insert against the unique email index: documents are
inserted one by one; the first whose email is already present (exact string
equality) stops the operation, keeping the documents inserted before it.
Returns the new store contents and the conflicting email, if any. -/
def insertOrdered : List Record → List Record → List Record × Option String
  | store, [] => (store, none)
  | store, r :: rs =>
    if r.email ∈ store.map Record.email then (store, some r.email)
    else insertOrdered (store ++ [r]) rs

/-- The error surfaced by the route's catch block, as distinguished by the
underlying exception: a mongoose ValidationError naming the failing paths, a
duplicate-key error naming the conflicting email, a decode failure from xlsx,
or a failure of fs.unlinkSync. -/
inductive ErrKind where
  | validation (fields : List String)
  | dup (email : String)
  | decode
  | cleanup
deriving DecidableEq

/-- DataModel.insertMany with default (ordered) options: validate every
document first, rejecting the whole call on the first invalid one with the
store untouched; otherwise run the ordered bulk insert. Returns the new store
contents and the result. -/
def insertMany (store : List Record) (rows : List RawRow) :
    List Record × Except ErrKind (List Record) :=
  match validateAll rows with
  | .error e => (store, .error (.validation e))
  | .ok recs =>
    match insertOrdered store recs with
    | (store', none) => (store', .ok recs)
    | (store', some e) => (store', .error (.dup e))

/-- The observable outcome of one POST /upload request: HTTP status, the
insertedCount of the success body, the error of the failure body, the store
contents afterwards, and whether the temporary file was deleted. -/
structure Outcome where
  status : Nat
  insertedCount : Option Nat
  err : Option ErrKind
  store : List Record
  fileDeleted : Bool
deriving DecidableEq

/-- The POST /upload route handler of src/index.js. `fileProvided` is whether
multer received a file (otherwise 400), `content` what xlsx.readFile finds at
the temporary path, `unlinkThrows` whether fs.unlinkSync would throw, and
`store` the Data collection before the request. Every exception inside the
try block lands in the catch block, which answers 500; the handler never
crashes the process. fs.unlinkSync is only reached after a successful
insertMany, so no failure path deletes the temporary file. -/
def handleUpload (fileProvided : Bool) (content : FileContent)
    (unlinkThrows : Bool) (store : List Record) : Outcome :=
  if !fileProvided then
    { status := 400, insertedCount := none, err := none,
      store := store, fileDeleted := false }
  else
    match content with
    | .garbage =>
      { status := 500, insertedCount := none, err := some .decode,
        store := store, fileDeleted := false }
    | .wb [] =>
      { status := 500, insertedCount := none, err := some .decode,
        store := store, fileDeleted := false }
    | .wb (sheet :: _) =>
      match insertMany store (sheetToJson sheet) with
      | (store', .error e) =>
        { status := 500, insertedCount := none, err := some e,
          store := store', fileDeleted := false }
      | (store', .ok recs) =>
        if unlinkThrows then
          { status := 500, insertedCount := none, err := some .cleanup,
            store := store', fileDeleted := false }
        else
          { status := 200, insertedCount := some recs.length, err := none,
            store := store', fileDeleted := true }

/-! ### Concrete data used by witnesses and counterexamples -/

/-- The header row name, age, email of the running example. -/
def hdrRow : SheetRow :=
  [some (.str "name"), some (.str "age"), some (.str "email")]

/-- A well-formed data row. -/
def anaRow : SheetRow :=
  [some (.str "Ana"), some (.num 30), some (.str "ana@x.com")]

/-- A second well-formed data row with a distinct email. -/
def boRow : SheetRow :=
  [some (.str "Bo"), some (.num 25), some (.str "bo@x.com")]

/-- The document the first data row validates to. -/
def anaRec : Record := { name := "Ana", age := .finite 30, email := "ana@x.com" }

/-- The document the second data row validates to. -/
def boRec : Record := { name := "Bo", age := .finite 25, email := "bo@x.com" }

/-- The spreadsheet of the running example: header plus two well-formed rows. -/
def demoSheet : Sheet := [hdrRow, anaRow, boRow]

/-- A data row whose email differs from the next one's only by case. -/
def anaUpperRow : SheetRow :=
  [some (.str "Ana"), some (.num 30), some (.str "A@x.com")]

/-- A data row whose email is the lower-cased form of the previous one's. -/
def boLowerRow : SheetRow :=
  [some (.str "Bo"), some (.num 25), some (.str "a@x.com")]

/-- A data row repeating the email of the first data row byte for byte. -/
def anaDupRow : SheetRow :=
  [some (.str "Ana2"), some (.num 31), some (.str "ana@x.com")]

/-- The document the repeated-email row validates to. -/
def anaDupRec : Record := { name := "Ana2", age := .finite 31, email := "ana@x.com" }

/-- A well-formed data row whose email is already in the store in the C5
scenario. -/
def cyDupRow : SheetRow :=
  [some (.str "Cy"), some (.num 40), some (.str "ana@x.com")]

/-- The document the C5 conflicting row validates to. -/
def cyDupRec : Record := { name := "Cy", age := .finite 40, email := "ana@x.com" }

theorem validateAll_length (rows : List RawRow) (recs : List Record)
    (h : validateAll rows = .ok recs) : recs.length = rows.length := by
  induction rows generalizing recs with
  | nil =>
    simp only [validateAll, Except.ok.injEq] at h
    subst h
    rfl
  | cons r rs ih =>
    unfold validateAll at h
    cases hv : validateRow r with
    | error e => rw [hv] at h; exact absurd h (by simp)
    | ok rec =>
      rw [hv] at h
      cases ha : validateAll rs with
      | error e => rw [ha] at h; exact absurd h (by simp)
      | ok recs' =>
        rw [ha] at h
        simp only [Except.ok.injEq] at h
        subst h
        simp [ih recs' ha]

theorem insertOrdered_ok (recs : List Record) : ∀ store : List Record,
    (recs.map Record.email).Nodup →
    (∀ r ∈ recs, r.email ∉ store.map Record.email) →
    insertOrdered store recs = (store ++ recs, none) := by
  induction recs with
  | nil => intro store _ _; simp [insertOrdered]
  | cons r rs ih =>
    intro store hnd hdisj
    simp only [List.map_cons, List.nodup_cons] at hnd
    unfold insertOrdered
    rw [if_neg (hdisj r (List.mem_cons_self r rs))]
    rw [ih (store ++ [r]) hnd.2 ?_]
    · simp
    · intro r' hr'
      simp only [List.map_append, List.map_cons, List.map_nil, List.mem_append,
        List.mem_singleton, not_or]
      refine ⟨hdisj r' (List.mem_cons_of_mem _ hr'), ?_⟩
      intro he
      exact hnd.1 (he ▸ List.mem_map_of_mem Record.email hr')

theorem insertOrdered_none_disjoint (recs : List Record) : ∀ store st' : List Record,
    insertOrdered store recs = (st', none) →
    ∀ r ∈ recs, r.email ∉ store.map Record.email := by
  induction recs with
  | nil => intro store st' _ r hr; exact absurd hr (List.not_mem_nil r)
  | cons r rs ih =>
    intro store st' h r' hr'
    unfold insertOrdered at h
    by_cases hc : r.email ∈ store.map Record.email
    · rw [if_pos hc] at h
      exact absurd h (by simp)
    · rw [if_neg hc] at h
      rcases List.mem_cons.mp hr' with rfl | hr'
      · exact hc
      · intro hmem
        exact ih (store ++ [r]) st' h r' hr'
          (by simp only [List.map_append, List.mem_append]; exact Or.inl hmem)

theorem insertOrdered_none_nodup (recs : List Record) : ∀ store st' : List Record,
    insertOrdered store recs = (st', none) →
    (recs.map Record.email).Nodup := by
  induction recs with
  | nil => intro store st' _; simp
  | cons r rs ih =>
    intro store st' h
    unfold insertOrdered at h
    by_cases hc : r.email ∈ store.map Record.email
    · rw [if_pos hc] at h
      exact absurd h (by simp)
    · rw [if_neg hc] at h
      simp only [List.map_cons, List.nodup_cons]
      refine ⟨?_, ih (store ++ [r]) st' h⟩
      intro hmem
      rcases List.mem_map.mp hmem with ⟨r', hr', he⟩
      exact insertOrdered_none_disjoint rs (store ++ [r]) st' h r' hr'
        (by simp [he])

theorem insertOrdered_cases (recs : List Record) : ∀ store : List Record,
    insertOrdered store recs = (store ++ recs, none) ∨
    ∃ k e, k < recs.length ∧
      insertOrdered store recs = (store ++ recs.take k, some e) := by
  induction recs with
  | nil => intro store; left; simp [insertOrdered]
  | cons r rs ih =>
    intro store
    by_cases hc : r.email ∈ store.map Record.email
    · right
      refine ⟨0, r.email, by simp, ?_⟩
      simp [insertOrdered, hc]
    · rcases ih (store ++ [r]) with h | ⟨k, e, hk, h⟩
      · left
        unfold insertOrdered
        rw [if_neg hc, h]
        simp
      · right
        refine ⟨k + 1, e, by simp only [List.length_cons]; omega, ?_⟩
        unfold insertOrdered
        rw [if_neg hc, h]
        simp

/-- The projection of a row object onto the schema fields, i.e. what mongoose
strict mode (the default) keeps of a document before storing it. -/
def restrictRow (r : RawRow) : RawRow :=
  r.filter fun p => p.1 == "name" || p.1 == "age" || p.1 == "email"

theorem lookupCell_restrict (k : String)
    (hk : k = "name" ∨ k = "age" ∨ k = "email") :
    ∀ r : RawRow, lookupCell (restrictRow r) k = lookupCell r k := by
  intro r
  induction r with
  | nil => rfl
  | cons p t ih =>
    by_cases hp : (p.1 == "name" || p.1 == "age" || p.1 == "email") = true
    · by_cases hpk : p.1 == k
      · simp [restrictRow, lookupCell, List.filter, hp, List.find?, hpk]
      · simp only [restrictRow, List.filter, hp] at *
        simp only [lookupCell, List.find?, hpk] at *
        exact ih
    · have hpk : (p.1 == k) = false := by
        rcases hk with rfl | rfl | rfl <;>
          simp only [Bool.or_eq_true, beq_iff_eq] at hp ⊢ <;>
          simp only [beq_eq_false_iff_ne, ne_eq] <;>
          intro hcon <;> exact hp (by simp [hcon])
      simp only [restrictRow, List.filter, hp] at *
      simp only [lookupCell, List.find?, hpk] at *
      exact ih

theorem nameField_restrict (r : RawRow) :
    nameField (restrictRow r) = nameField r := by
  unfold nameField
  rw [lookupCell_restrict "name" (Or.inl rfl) r]

theorem ageField_restrict (r : RawRow) :
    ageField (restrictRow r) = ageField r := by
  unfold ageField
  rw [lookupCell_restrict "age" (Or.inr (Or.inl rfl)) r]

theorem emailField_restrict (r : RawRow) :
    emailField (restrictRow r) = emailField r := by
  unfold emailField
  rw [lookupCell_restrict "email" (Or.inr (Or.inr rfl)) r]

theorem rowErrors_restrict (r : RawRow) :
    rowErrors (restrictRow r) = rowErrors r := by
  unfold rowErrors
  rw [nameField_restrict, ageField_restrict, emailField_restrict]

theorem validateRow_restrict (r : RawRow) :
    validateRow (restrictRow r) = validateRow r := by
  unfold validateRow
  rw [nameField_restrict, ageField_restrict, emailField_restrict, rowErrors_restrict]

theorem validateAll_restrict (rows : List RawRow) :
    validateAll (rows.map restrictRow) = validateAll rows := by
  induction rows with
  | nil => rfl
  | cons r rs ih =>
    simp only [List.map_cons]
    unfold validateAll
    rw [validateRow_restrict, ih]

theorem handleUpload_insert_error (sheet : Sheet) (more : List Sheet) (u : Bool)
    (store store' : List Record) (e : ErrKind)
    (h : insertMany store (sheetToJson sheet) = (store', .error e)) :
    handleUpload true (.wb (sheet :: more)) u store =
      { status := 500, insertedCount := none, err := some e,
        store := store', fileDeleted := false } := by
  simp only [handleUpload, Bool.not_true, Bool.false_eq_true, if_false, h]

theorem handleUpload_insert_ok (sheet : Sheet) (more : List Sheet) (u : Bool)
    (store store' : List Record) (recs : List Record)
    (h : insertMany store (sheetToJson sheet) = (store', .ok recs)) :
    handleUpload true (.wb (sheet :: more)) u store =
      (if u then
        { status := 500, insertedCount := none, err := some .cleanup,
          store := store', fileDeleted := false }
       else
        { status := 200, insertedCount := some recs.length, err := none,
          store := store', fileDeleted := true }) := by
  simp only [handleUpload, Bool.not_true, Bool.false_eq_true, if_false, h]

/-! ### Claim theorems -/

/-- C1, counterexample: a file was supplied but its bytes are not a
recognizable spreadsheet, so the pipeline fails; the request completes with
status 500 and the temporary file has NOT been deleted, because fs.unlinkSync
only runs on the success path, after insertMany. This refutes the claim that
the temporary file is deleted on every exit path. -/
theorem tempFile_left_behind_on_failure :
    (handleUpload true FileContent.garbage false []).status = 500 ∧
    (handleUpload true FileContent.garbage false []).fileDeleted = false :=
  ⟨rfl, rfl⟩

/-- C1, amended: the temporary uploaded file is deleted exactly on the fully
successful path — that is, the file is deleted if and only if the request
answers 200. On every failure exit (no file, decode failure, validation
failure, duplicate key, or the deletion call itself throwing) the temporary
file is left on the filesystem. -/
theorem tempFile_deleted_iff_success (f : Bool) (c : FileContent) (u : Bool)
    (store : List Record) :
    (handleUpload f c u store).fileDeleted = true ↔
      (handleUpload f c u store).status = 200 := by
  cases f with
  | false => simp [handleUpload]
  | true =>
    cases c with
    | garbage => simp [handleUpload]
    | wb sheets =>
      cases sheets with
      | nil => simp [handleUpload]
      | cons sheet more =>
        rcases h : insertMany store (sheetToJson sheet) with ⟨store', res⟩
        cases res with
        | error e =>
          rw [handleUpload_insert_error sheet more u store store' e h]
          simp
        | ok recs =>
          rw [handleUpload_insert_ok sheet more u store store' recs h]
          cases u <;> simp

/-- C6, counterexample: an uploaded workbook whose first sheet is completely
empty (so it has no header row) does not fail: sheet_to_json yields an empty
array, insertMany of an empty array succeeds, and the request answers 200
with insertedCount 0 instead of the claimed 500 decode error. -/
theorem headerless_sheet_not_an_error :
    (handleUpload true (FileContent.wb [([] : Sheet)]) false []).status = 200 ∧
    (handleUpload true (FileContent.wb [([] : Sheet)]) false []).err = none ∧
    (handleUpload true (FileContent.wb [([] : Sheet)]) false []).insertedCount
      = some 0 :=
  ⟨rfl, rfl, rfl⟩

/-- C6, amended: a file that is not a recognizable spreadsheet container (or
is empty, on which xlsx.readFile also throws) makes the request fail with a
decode error answered as HTTP 500, with nothing persisted and the temporary
file left behind; but a workbook whose first sheet has no header row is not a
decode error: it is answered 200 with insertedCount 0 and nothing persisted. -/
theorem decode_error_on_unrecognizable_file (u : Bool) (store : List Record) :
    handleUpload true FileContent.garbage u store =
      { status := 500, insertedCount := none, err := some .decode,
        store := store, fileDeleted := false } ∧
    handleUpload true (FileContent.wb [([] : Sheet)]) false store =
      { status := 200, insertedCount := some 0, err := none,
        store := store, fileDeleted := true } :=
  ⟨rfl, rfl⟩

/-- C9: a spreadsheet whose first sheet contains a header row and no data rows
uploads successfully: sheet_to_json yields an empty array, insertMany of the
empty array inserts nothing, and the request answers 200 with insertedCount 0
and the store unchanged. -/
theorem header_only_sheet_inserts_nothing (hdr : SheetRow) (more : List Sheet)
    (store : List Record) :
    handleUpload true (FileContent.wb ([hdr] :: more)) false store =
      { status := 200, insertedCount := some 0, err := none,
        store := store, fileDeleted := true } :=
  rfl

theorem filter_nonblank_eq (data : List SheetRow)
    (h : ∀ row ∈ data, isBlankRow row = false) :
    (data.filter fun row => !isBlankRow row) = data := by
  induction data with
  | nil => rfl
  | cons row t ih =>
    simp [List.filter_cons, h row (List.mem_cons_self row t),
      ih (fun r hr => h r (List.mem_cons_of_mem _ hr))]

/-- C2: uploading a spreadsheet whose first sheet consists of a header row and
N data rows, none blank, all validating to documents whose emails are pairwise
distinct and absent from the store, answers 200 with insertedCount N and adds
exactly those N documents to the store (and deletes the temporary file). -/
theorem valid_upload_inserts_all (hdr : SheetRow) (data : List SheetRow)
    (more : List Sheet) (store recs : List Record)
    (hblank : ∀ row ∈ data, isBlankRow row = false)
    (hval : validateAll (sheetToJson (hdr :: data)) = .ok recs)
    (hnodup : (recs.map Record.email).Nodup)
    (hfresh : ∀ r ∈ recs, r.email ∉ store.map Record.email) :
    handleUpload true (.wb ((hdr :: data) :: more)) false store =
      { status := 200, insertedCount := some data.length, err := none,
        store := store ++ recs, fileDeleted := true } := by
  have hlen : recs.length = data.length := by
    have h1 := validateAll_length _ _ hval
    rw [h1]
    simp only [sheetToJson, filter_nonblank_eq data hblank, List.length_map]
  have hins : insertMany store (sheetToJson (hdr :: data))
      = (store ++ recs, .ok recs) := by
    simp only [insertMany, hval]
    rw [insertOrdered_ok recs store hnodup hfresh]
  rw [handleUpload_insert_ok _ more false store _ recs hins]
  simp [hlen]

/-- C2 witness: the running example — header name, age, email and the two
rows Ana and Bo — answers 200 with insertedCount 2 and stores exactly the two
documents. -/
theorem valid_upload_inserts_all_witness :
    validateAll (sheetToJson (hdrRow :: [anaRow, boRow])) = .ok [anaRec, boRec] ∧
    handleUpload true (.wb [[hdrRow, anaRow, boRow]]) false [] =
      { status := 200, insertedCount := some 2, err := none,
        store := [anaRec, boRec], fileDeleted := true } :=
  ⟨by decide, valid_upload_inserts_all hdrRow [anaRow, boRow] [] [] [anaRec, boRec]
      (by decide) (by decide) (by decide) (by decide)⟩

/-- C4, counterexample: two rows whose emails become equal after lower-casing
but are not byte-for-byte equal are NOT rejected: neither the code nor the
store normalizes emails, the unique index compares exact strings, so the
upload succeeds with both documents persisted, refuting the claim that such a
batch is rejected as a duplicate with nothing persisted. -/
theorem case_insensitive_duplicate_not_rejected :
    "A@x.com".data.map Char.toLower = "a@x.com".data.map Char.toLower ∧
    "A@x.com" ≠ "a@x.com" ∧
    handleUpload true (.wb [[hdrRow, anaUpperRow, boLowerRow]]) false [] =
      { status := 200, insertedCount := some 2, err := none,
        store := [{ name := "Ana", age := .finite 30, email := "A@x.com" },
                  { name := "Bo", age := .finite 25, email := "a@x.com" }],
        fileDeleted := true } := by
  refine ⟨by decide, by decide, by decide⟩

/-- C4, amended: only byte-for-byte equal email values conflict. If the
validated rows of an upload contain two exactly equal emails, the bulk insert
fails with a duplicate-key error answered as HTTP 500 — but because the
insert is ordered, the rows strictly before the first conflicting one are
persisted, so the store may still gain documents from the rejected batch. -/
theorem exact_duplicate_email_rejected (sheet : Sheet) (more : List Sheet)
    (u : Bool) (store recs : List Record)
    (hval : validateAll (sheetToJson sheet) = .ok recs)
    (hdup : ¬ (recs.map Record.email).Nodup) :
    ∃ k e, k < recs.length ∧
      handleUpload true (.wb (sheet :: more)) u store =
        { status := 500, insertedCount := none, err := some (.dup e),
          store := store ++ recs.take k, fileDeleted := false } := by
  rcases insertOrdered_cases recs store with h | ⟨k, e, hk, h⟩
  · exact absurd (insertOrdered_none_nodup recs store _ h) hdup
  · refine ⟨k, e, hk, ?_⟩
    apply handleUpload_insert_error
    simp only [insertMany, hval, h]

/-- C4 witness: a batch whose two rows carry the identical email ana@x.com is
rejected with a duplicate-key error (the first row having been persisted). -/
theorem exact_duplicate_email_rejected_witness :
    validateAll (sheetToJson [hdrRow, anaRow, anaDupRow]) = .ok [anaRec, anaDupRec] ∧
    ¬ (([anaRec, anaDupRec]).map Record.email).Nodup ∧
    ∃ k e, k < ([anaRec, anaDupRec] : List Record).length ∧
      handleUpload true (.wb [[hdrRow, anaRow, anaDupRow]]) false [] =
        { status := 500, insertedCount := none, err := some (.dup e),
          store := [] ++ ([anaRec, anaDupRec] : List Record).take k,
          fileDeleted := false } :=
  ⟨by decide, by decide,
    exact_duplicate_email_rejected [hdrRow, anaRow, anaDupRow] [] false []
      [anaRec, anaDupRec] (by decide) (by decide)⟩

/-- C5, counterexample: re-uploading a batch containing the stored email
ana@x.com is rejected with a duplicate-key error, but the store does NOT gain
zero documents: the well-formed row before the conflicting one, Bo, is
persisted by the ordered bulk insert, refuting the zero-new-documents part of
the claim. -/
theorem existing_email_upload_adds_documents :
    handleUpload true (.wb [[hdrRow, boRow, cyDupRow]]) false [anaRec] =
      { status := 500, insertedCount := none, err := some (.dup "ana@x.com"),
        store := [anaRec, boRec], fileDeleted := false } ∧
    (handleUpload true (.wb [[hdrRow, boRow, cyDupRow]]) false [anaRec]).store
      ≠ [anaRec] := by
  refine ⟨by decide, by decide⟩

/-- C5, amended: an upload containing an email already present in the store is
rejected with a duplicate-key persistence error, surfaced as an HTTP 500
response by the catch block rather than crashing the process — but the
documents strictly before the first conflicting one are persisted, so the
store may gain documents from the rejected upload. -/
theorem existing_email_rejected_as_duplicate (sheet : Sheet) (more : List Sheet)
    (u : Bool) (store recs : List Record)
    (hval : validateAll (sheetToJson sheet) = .ok recs)
    (hmem : ∃ r ∈ recs, r.email ∈ store.map Record.email) :
    ∃ k e, k < recs.length ∧
      handleUpload true (.wb (sheet :: more)) u store =
        { status := 500, insertedCount := none, err := some (.dup e),
          store := store ++ recs.take k, fileDeleted := false } := by
  rcases insertOrdered_cases recs store with h | ⟨k, e, hk, h⟩
  · rcases hmem with ⟨r, hr, hrm⟩
    exact absurd hrm (insertOrdered_none_disjoint recs store _ h r hr)
  · refine ⟨k, e, hk, ?_⟩
    apply handleUpload_insert_error
    simp only [insertMany, hval, h]

/-- C5 witness: with Ana already stored, a batch of Bo followed by a row
reusing Ana's email is rejected with a duplicate-key error. -/
theorem existing_email_rejected_as_duplicate_witness :
    validateAll (sheetToJson [hdrRow, boRow, cyDupRow]) = .ok [boRec, cyDupRec] ∧
    (∃ r ∈ ([boRec, cyDupRec] : List Record),
      r.email ∈ ([anaRec] : List Record).map Record.email) ∧
    ∃ k e, k < ([boRec, cyDupRec] : List Record).length ∧
      handleUpload true (.wb [[hdrRow, boRow, cyDupRow]]) false [anaRec] =
        { status := 500, insertedCount := none, err := some (.dup e),
          store := [anaRec] ++ ([boRec, cyDupRec] : List Record).take k,
          fileDeleted := false } :=
  ⟨by decide, by decide,
    existing_email_rejected_as_duplicate [hdrRow, boRow, cyDupRow] [] false
      [anaRec] [boRec, cyDupRec] (by decide) (by decide)⟩

/-- C8, counterexample: the same successful upload answered 200 when
fs.unlinkSync succeeds is answered 500 when fs.unlinkSync throws, because the
deletion call sits inside the same try block and its exception reaches the
generic catch. The deletion failure therefore does change the HTTP response,
refuting the claim that it is only logged and never propagated. -/
theorem unlink_failure_changes_response :
    handleUpload true (.wb [demoSheet]) false [] =
      { status := 200, insertedCount := some 2, err := none,
        store := [anaRec, boRec], fileDeleted := true } ∧
    handleUpload true (.wb [demoSheet]) true [] =
      { status := 500, insertedCount := none, err := some .cleanup,
        store := [anaRec, boRec], fileDeleted := false } := by
  refine ⟨by decide, by decide⟩

/-- C8, amended: if deleting the temporary file throws after a fully
successful insert, the exception is caught by the route's generic handler and
the request is answered 500 with the deletion error instead of the success
count — the primary ingestion outcome is masked, even though the inserted
documents remain in the store. -/
theorem unlink_failure_masks_success (sheet : Sheet) (more : List Sheet)
    (store recs : List Record)
    (hval : validateAll (sheetToJson sheet) = .ok recs)
    (hnodup : (recs.map Record.email).Nodup)
    (hfresh : ∀ r ∈ recs, r.email ∉ store.map Record.email) :
    handleUpload true (.wb (sheet :: more)) true store =
      { status := 500, insertedCount := none, err := some .cleanup,
        store := store ++ recs, fileDeleted := false } := by
  have hins : insertMany store (sheetToJson sheet) = (store ++ recs, .ok recs) := by
    simp only [insertMany, hval]
    rw [insertOrdered_ok recs store hnodup hfresh]
  rw [handleUpload_insert_ok _ more true store _ recs hins]
  rfl

/-- C8 witness: the running example uploaded while fs.unlinkSync throws is
answered 500 although both documents were inserted. -/
theorem unlink_failure_masks_success_witness :
    validateAll (sheetToJson demoSheet) = .ok [anaRec, boRec] ∧
    handleUpload true (.wb [demoSheet]) true [] =
      { status := 500, insertedCount := none, err := some .cleanup,
        store := [anaRec, boRec], fileDeleted := false } :=
  ⟨by decide,
    unlink_failure_masks_success demoSheet [] [] [anaRec, boRec]
      (by decide) (by decide) (by decide)⟩

/-- C10: the store holds values of the Record type, which has exactly the
schema fields name, age and email, and the persisted outcome of a batch is
unchanged when every row object is first projected onto those three columns:
columns outside the schema are dropped by mongoose strict mode and never
influence what is persisted. -/
theorem extra_columns_never_persisted :
    (∀ r : RawRow, validateRow (restrictRow r) = validateRow r) ∧
    ∀ (store : List Record) (rows : List RawRow),
      insertMany store (rows.map restrictRow) = insertMany store rows := by
  refine ⟨validateRow_restrict, ?_⟩
  intro store rows
  unfold insertMany
  rw [validateAll_restrict]
